import Mathlib

/-!
# Gopher job-queue: shallow embedding and verification

A shallow embedding of the job lifecycle subsystem of the Gopher
distributed task queue (Go + Redis), together with theorems settling the
frozen claims about its specification.

Conventions of the embedding:
* Redis hashes are association lists `List (String × Int)`; `HINCRBY` on a
  missing field starts from 0, as in Redis.
* Redis lists hold deserialised `Job` values; `LPUSH` is `List.cons`,
  `BRPOP` pops the last element.
* Go `time.Time` values are integers (epoch seconds or nanoseconds, noted
  at each use); Go `int`/`int64` arithmetic that can overflow is modelled
  with explicit wrapping modulo `2 ^ 64`.
* Go `float64` rate/ratio arithmetic is modelled over `ℚ`.
* Fallible Go functions return `Except GoError`; a Go panic is an
  `Except GoPanic` error.
-/

/-- Error kinds surfaced by the queue layer (from `fmt.Errorf` sites). -/
inductive GoError
  | validation (msg : String)
  | notFound (msg : String)
  | broker (msg : String)
deriving DecidableEq, Repr

/-- A run-time panic (here: a failed type assertion on a nil interface). -/
inductive GoPanic
  | nilTypeAssertion
deriving DecidableEq, Repr

/-! ## Redis hash model -/

/-- `HGET` with the Redis `HINCRBY` convention: a missing field reads as 0. -/
def hashGet : List (String × Int) → String → Int
  | [], _ => 0
  | (k, v) :: rest, key => if k = key then v else hashGet rest key

/-- `HINCRBY`: increment a field, creating it at the delta when missing. -/
def hashIncrBy : List (String × Int) → String → Int → List (String × Int)
  | [], key, d => [(key, d)]
  | (k, v) :: rest, key, d =>
    if k = key then (k, v + d) :: rest else (k, v) :: hashIncrBy rest key d

/-! ## Job data model (pkg/types/job.go, job_helpers.go) -/

/-- A value stored in the untyped metadata map `map[string]interface{}`:
either a Go string or some other dynamic type. -/
inductive MetaVal
  | str (s : String)
  | other
deriving DecidableEq, Repr

/-- The queued job record. Field `Type` of the Go struct is `jobType` here
(`Type` is not a usable name in Lean); `Payload` (`json.RawMessage`, bytes)
is a list of byte values; timestamps are epoch nanoseconds. -/
structure Job where
  id : String
  jobType : String
  payload : List Nat
  attempts : Int
  maxRetries : Int
  createdAt : Int
  updatedAt : Int
  metadata : List (String × MetaVal)
deriving DecidableEq, Repr

/-- `Job.ShouldRetry`: `j.Attempts < j.MaxRetries`. -/
def Job.ShouldRetry (j : Job) : Bool :=
  j.attempts < j.maxRetries

/-- `Job.IncrementAttempts`: bump the attempt counter and refresh the
update timestamp (`now` is the current UTC time). -/
def Job.IncrementAttempts (j : Job) (now : Int) : Job :=
  { j with attempts := j.attempts + 1, updatedAt := now }

/-- `Job.Validate`: the four validation checks, in source order, with the
source's error messages. Returns the first failure, `none` when valid. -/
def Job.Validate (j : Job) : Option String :=
  if j.id = "" then some "job ID cannot be empty"
  else if j.jobType = "" then some "job type cannot be empty"
  else if j.payload = [] then some "job payload cannot be empty"
  else if j.maxRetries < 0 then some "max retries cannot be empty"
  else none

/-! ## Priority queue (internal/queue/priority.go) -/

/-- The three priority levels. -/
inductive Priority
  | high
  | normal
  | low
deriving DecidableEq, Repr

/-- The string name of a priority (`PriorityHigh` etc.). -/
def priorityName : Priority → String
  | .high => "high"
  | .normal => "normal"
  | .low => "low"

/-- The Redis list key of each priority queue. -/
def queueKeyName : Priority → String
  | .high => "queue:high"
  | .normal => "queue:normal"
  | .low => "queue:low"

/-- The default processing ratio installed by `NewPriorityQueue`:
high = 5, normal = 3, low = 1. -/
def defaultPriorityRatio : Priority → Int
  | .high => 5
  | .normal => 3
  | .low => 1

/-- The broker state visible to `PriorityQueue`: the three job lists
(head = most recently pushed), the `queue_stats` hash, and the
`priority_counters` hash. -/
structure PQState where
  high : List Job
  normal : List Job
  low : List Job
  stats : List (String × Int)
  priorityCounters : List (String × Int)
deriving DecidableEq, Repr

/-- Read one priority's list. -/
def queueList (s : PQState) (p : Priority) : List Job :=
  match p with
  | .high => s.high
  | .normal => s.normal
  | .low => s.low

/-- Replace one priority's list. -/
def setQueueList (s : PQState) (p : Priority) (l : List Job) : PQState :=
  match p with
  | .high => { s with high := l }
  | .normal => { s with normal := l }
  | .low => { s with low := l }

/-- Priority extraction in `Enqueue` (lines 86–96): default normal, use the
metadata "priority" entry only when it is a string equal to "high" or
"low". -/
def jobPriority (j : Job) : Priority :=
  match lookupMeta j.metadata with
  | some (MetaVal.str s) => if s = "high" then .high else if s = "low" then .low else .normal
  | _ => .normal
where
  /-- Lookup of the "priority" key in the metadata map. -/
  lookupMeta : List (String × MetaVal) → Option MetaVal
    | [] => none
    | (k, v) :: rest => if k = "priority" then some v else lookupMeta rest

/-- `PriorityQueue.Enqueue`: validate, pick the list from metadata
priority, `LPUSH` the job and bump the two enqueue counters in one
pipeline. On validation failure it returns before any broker command, so
the state component is returned untouched. -/
def PriorityQueue.Enqueue (s : PQState) (j : Job) : Except GoError Unit × PQState :=
  match j.Validate with
  | some msg => (.error (.validation ("job validation failed: " ++ msg)), s)
  | none =>
    let p := jobPriority j
    let s1 := setQueueList s p (j :: queueList s p)
    let s2 := { s1 with
      stats := hashIncrBy (hashIncrBy s1.stats "total_enqueued" 1)
        ("enqueued:" ++ priorityName p) 1 }
    (.ok (), s2)

/-- `PriorityQueue.Size`: total length of the three lists. -/
def PriorityQueue.Size (s : PQState) : Int :=
  (s.high.length : Int) + s.normal.length + s.low.length

/-- The ratio `W(p) / (C(p) + 1)` computed (in `float64` in the source,
here over `ℚ`) by `selectQueueByRatio` for weights `w` and dequeue
counters `c`. -/
def queueRatio (w c : Priority → Int) (p : Priority) : ℚ :=
  (w p : ℚ) / ((c p : ℚ) + 1)

/-- `PriorityQueue.selectQueueByRatio` (lines 208–222): the source's
if/else-if/else over the three ratios, returning the chosen priority
(the source returns the corresponding list key, see `queueKeyName`). -/
def selectQueueByRatio (w c : Priority → Int) : Priority :=
  let highRatio := queueRatio w c .high
  let normalRatio := queueRatio w c .normal
  let lowRatio := queueRatio w c .low
  if highRatio ≥ normalRatio ∧ highRatio ≥ lowRatio then .high
  else if normalRatio ≥ highRatio ∧ normalRatio ≥ lowRatio then .normal
  else .low

/-- Modelled from the spec (for comparison with `selectQueueByRatio`):
"Select the list with the maximal ratio, breaking ties high→normal→low" —
the argmax of `queueRatio` scanning priorities in the order high, normal,
low and keeping the first maximum. -/
def specWeightedFairSelect (w c : Priority → Int) : Priority :=
  if queueRatio w c .high ≥ queueRatio w c .normal ∧
      queueRatio w c .high ≥ queueRatio w c .low then .high
  else if queueRatio w c .normal ≥ queueRatio w c .low then .normal
  else .low

/-- `getPriorityCounters` (lines 225–247): read the `priority_counters`
hash; fields missing from the hash count as 0. -/
def getPriorityCounters (s : PQState) : Priority → Int :=
  fun p => hashGet s.priorityCounters (priorityName p)

/-- Result of one Redis `BRPOP key timeout` command in a single-consumer
view: a popped element, a timeout (`redis.Nil`), or an indefinite block —
Redis blocks forever when the list stays empty and the timeout is 0. -/
inductive PopResult
  | popped (p : Priority) (j : Job)
  | timedOut
  | blockedForever
deriving DecidableEq, Repr

/-- `BRPOP` on one priority's list with a timeout in milliseconds: pop the
tail when non-empty; when empty, time out if the timeout is positive and
block forever if it is 0. -/
def brpop (s : PQState) (timeoutMs : Int) (p : Priority) : PopResult × PQState :=
  match (queueList s p).reverse with
  | [] => if 0 < timeoutMs then (.timedOut, s) else (.blockedForever, s)
  | j :: revRest => (.popped p j, setQueueList s p revRest.reverse)

/-- What one call of `PriorityQueue.Dequeue` does: return a job (with the
post-pop broker state), return `nil` (no job), or never return because a
`BRPOP` with timeout 0 blocks on an empty list. -/
inductive DequeueOutcome
  | gotJob (j : Job) (s : PQState)
  | nilNoJob (s : PQState)
  | blockedForever (p : Priority)
deriving DecidableEq, Repr

/-- The stats pipeline run after a successful pop (lines 180–196):
`total_dequeued`, `dequeued:<p>` in `queue_stats` and `<p>` in
`priority_counters` each gain 1. -/
def finishDequeue (s : PQState) (p : Priority) (j : Job) : DequeueOutcome :=
  .gotJob j { s with
    stats := hashIncrBy (hashIncrBy s.stats "total_dequeued" 1)
      ("dequeued:" ++ priorityName p) 1,
    priorityCounters := hashIncrBy s.priorityCounters (priorityName p) 1 }

/-- The fall-through loop of `Dequeue` (lines 146–162): iterate the keys
in the fixed order high, normal, low, skipping the already-tried one, and
issue `BRPOP key 0` on each. `continue` on `redis.Nil` (unreachable at
timeout 0) and the final `return nil, nil` (lines 164–167) are kept to
mirror the source's structure. -/
def tryOtherQueues (s : PQState) (skip : Priority) : List Priority → DequeueOutcome
  | [] => .nilNoJob s
  | p :: rest =>
    if p = skip then tryOtherQueues s skip rest
    else
      match brpop s 0 p with
      | (.popped q j, s1) => finishDequeue s1 q j
      | (.timedOut, _) => tryOtherQueues s skip rest
      | (.blockedForever, _) => .blockedForever p

/-- `PriorityQueue.Dequeue` (lines 132–205): read the counters, select a
list by ratio, `BRPOP` it with a one-second timeout, and on `redis.Nil`
fall through to the other lists with timeout 0. `ratio` is the queue's
configured `priorityRatio` (`defaultPriorityRatio` unless
`SetPriorityRatio` was called). -/
def PriorityQueue.Dequeue (ratio : Priority → Int) (s : PQState) : DequeueOutcome :=
  let counters := getPriorityCounters s
  let key := selectQueueByRatio ratio counters
  match brpop s 1000 key with
  | (.popped p j, s1) => finishDequeue s1 p j
  | (.timedOut, _) => tryOtherQueues s key [Priority.high, Priority.normal, Priority.low]
  | (.blockedForever, _) => .blockedForever key

/-! ## Dead-letter queue (internal/queue/dlq.go) -/

/-- A DLQ entry: the job, the final error string, and the failure time
(epoch nanoseconds). -/
structure FailedJobInfo where
  job : Job
  error : String
  failedAt : Int
deriving DecidableEq, Repr

/-- The broker state visible to `RedisDLQ`: the `dlq:jobs` list (head
first, as `LRANGE 0 -1` returns it) and the `dlq:stats` hash. -/
structure DLQState where
  entries : List FailedJobInfo
  dlqStats : List (String × Int)
deriving DecidableEq, Repr

/-- `RedisDLQ.Send` (lines 55–82): wrap, `LPUSH`, bump `total` and
`type:<t>` in `dlq:stats`. -/
def RedisDLQ.Send (now : Int) (d : DLQState) (j : Job) (errorMsg : String) : DLQState :=
  { d with
    entries := ⟨j, errorMsg, now⟩ :: d.entries,
    dlqStats := hashIncrBy (hashIncrBy d.dlqStats "total" 1) ("type:" ++ j.jobType) 1 }

/-- `LREM key 1 item`: remove the first occurrence of an entry. -/
def lremFirst : List FailedJobInfo → FailedJobInfo → List FailedJobInfo
  | [], _ => []
  | e :: rest, tgt => if e = tgt then rest else e :: lremFirst rest tgt

/-- The scan loop of `RedisDLQ.Reprocess` (lines 106–138) over the
`LRANGE` snapshot: on the first entry whose job id matches, reset the
attempt counter, refresh the update timestamp, `LREM` the entry, enqueue
the fixed job on the main queue, and adjust `dlq:stats`; when the scan
ends without a match, return "not found" with nothing mutated. -/
def reprocessScan (now : Int) (d : DLQState) (q : PQState) (jobID : String) :
    List FailedJobInfo → Except GoError Unit × DLQState × PQState
  | [] => (.error (.notFound ("job with ID " ++ jobID ++ " not found in DLQ")), d, q)
  | e :: rest =>
    if e.job.id = jobID then
      let fixedJob := { e.job with attempts := 0, updatedAt := now }
      let d1 := { d with entries := lremFirst d.entries e }
      match PriorityQueue.Enqueue q fixedJob with
      | (.error _, q1) => (.error (.broker "failed to requeue job"), d1, q1)
      | (.ok _, q1) =>
        let d2 := { d1 with
          dlqStats := hashIncrBy (hashIncrBy (hashIncrBy d1.dlqStats "total" (-1))
            ("type:" ++ fixedJob.jobType) (-1)) "reprocessed" 1 }
        (.ok (), d2, q1)
    else reprocessScan now d q jobID rest

/-- `RedisDLQ.Reprocess` (lines 95–145). -/
def RedisDLQ.Reprocess (now : Int) (d : DLQState) (q : PQState) (jobID : String) :
    Except GoError Unit × DLQState × PQState :=
  reprocessScan now d q jobID d.entries

/-! ## Scheduled queue (internal/queue/scheduled.go) -/

/-- A scheduled-set member: the wrapped job, the execute-at time (epoch
seconds, the sorted-set score), the recurring flag and the preserved cron
expression. -/
structure ScheduledJob where
  job : Job
  executeAt : Int
  recurring : Bool
  cronExpression : String
deriving DecidableEq, Repr

/-- The broker state visible to `ScheduledQueue`: the `scheduled_jobs`
sorted set (as a list of members) and the `scheduled_stats` hash. -/
structure SchedState where
  entries : List ScheduledJob
  schedStats : List (String × Int)
deriving DecidableEq, Repr

/-- `simpleCronSchedule.Next` through `parseCronExpression`: the source's
placeholder cron parser accepts every expression and schedules one minute
after the given time. -/
def cronNext (_expr : String) (t : Int) : Int :=
  t + 60

/-- The queue package's `generateJobID` (scheduled.go lines 375–377):
`"job-<unix-nanoseconds>"`. -/
def generateJobID (nowNano : Int) : String :=
  "job-" ++ toString nowNano

/-- `ZREM`: remove the matching member from the scheduled set. -/
def zremSched : List ScheduledJob → ScheduledJob → List ScheduledJob
  | [], _ => []
  | e :: rest, tgt => if e = tgt then rest else e :: zremSched rest tgt

/-- `addScheduledJob` (lines 241–275): `ZADD` the member and bump `total`,
`recurring`/`one_time` and `type:<t>` in `scheduled_stats`. -/
def addScheduledJob (ss : SchedState) (sj : ScheduledJob) : SchedState :=
  { ss with
    entries := ss.entries ++ [sj],
    schedStats := hashIncrBy (hashIncrBy (hashIncrBy ss.schedStats "total" 1)
      (if sj.recurring then "recurring" else "one_time") 1)
      ("type:" ++ sj.job.jobType) 1 }

/-- The `ZRANGEBYSCORE scheduled_jobs 0 now` retrieval of
`ProcessDueJobs`: the members whose score lies in `[0, now]`. -/
def dueEntries (ss : SchedState) (now : Int) : List ScheduledJob :=
  ss.entries.filter (fun e => 0 ≤ e.executeAt ∧ e.executeAt ≤ now)

/-- The clone `ProcessDueJobs` builds for the next occurrence of a
recurring entry (lines 316–320): copy the job, generate a new id, reset
the attempt counter to 0 and stamp fresh creation/update times. -/
def recurringClone (now : Int) (j : Job) : Job :=
  { j with id := generateJobID now, attempts := 0, createdAt := now, updatedAt := now }

/-- The body of the `ProcessDueJobs` loop (lines 294–338) for one due
entry: enqueue the inner job on the main queue (`continue` on failure),
`ZREM` the entry, and for recurring entries reinsert a clone scheduled at
`next(now)` with a fresh id, reset attempts and fresh timestamps; the
accumulator also carries `processedCount`. -/
def processDueEntry (now : Int) (st : SchedState × PQState × Nat) (e : ScheduledJob) :
    SchedState × PQState × Nat :=
  let ss := st.1
  let qs := st.2.1
  let count := st.2.2
  let r := PriorityQueue.Enqueue qs e.job
  match r.1 with
  | .error _ => (ss, r.2, count)
  | .ok _ =>
    let ss1 := { ss with entries := zremSched ss.entries e }
    if e.recurring then
      let nextExec := cronNext e.cronExpression now
      let nextJob := recurringClone now e.job
      (addScheduledJob ss1 ⟨nextJob, nextExec, true, e.cronExpression⟩, r.2, count + 1)
    else
      ({ ss1 with schedStats := hashIncrBy ss1.schedStats "one_time" (-1) }, r.2, count + 1)

/-- `ScheduledQueue.ProcessDueJobs` (lines 278–341): fold the loop body
over the due members. (The placeholder cron parser never fails, so the
recurring branch always reinserts.) -/
def ScheduledQueue.ProcessDueJobs (now : Int) (ss : SchedState) (qs : PQState) :
    SchedState × PQState × Nat :=
  (dueEntries ss now).foldl (processDueEntry now) (ss, qs, 0)

/-! ## Rate limiter (internal/limiter/rate_limiter.go, local variant) -/

/-- Lookup in a Go map modelled as an association list. -/
def mapLookup {α : Type} : List (String × α) → String → Option α
  | [], _ => none
  | (k, v) :: rest, key => if k = key then some v else mapLookup rest key

/-- The `v, ok := m[k]; if !ok { v = d; m[k] = d }` idiom: read a key,
installing the default when absent. -/
def mapGetOrInit {α : Type} (m : List (String × α)) (k : String) (d : α) :
    α × List (String × α) :=
  match mapLookup m k with
  | some v => (v, m)
  | none => (d, (k, d) :: m)

/-- `m[k] = v`: overwrite or insert. -/
def mapSet {α : Type} : List (String × α) → String → α → List (String × α)
  | [], key, v => [(key, v)]
  | (k, w) :: rest, key, v =>
    if k = key then (k, v) :: rest else (k, w) :: mapSet rest key v

/-- `LocalRateLimiter`: per-type limits (tokens/second), bursts, last
allowed times (epoch seconds) and token buckets; `float64` values are
rationals here. -/
structure LocalRateLimiter where
  limits : List (String × ℚ)
  bursts : List (String × Int)
  lastAllowed : List (String × ℚ)
  tokenBuckets : List (String × ℚ)
  defaults : ℚ
  defaultBurst : Int
deriving DecidableEq, Repr

/-- `LocalRateLimiter.Allow` (lines 193–242): lazily initialise the four
per-type entries, refill `elapsed · limit` tokens up to the burst, deny
when fewer than one token is available, otherwise consume one token and
record the time. -/
def LocalRateLimiter.Allow (l : LocalRateLimiter) (now : ℚ) (jobType : String) :
    Bool × LocalRateLimiter :=
  let r1 := mapGetOrInit l.limits jobType l.defaults
  let r2 := mapGetOrInit l.bursts jobType l.defaultBurst
  let r3 := mapGetOrInit l.lastAllowed jobType (now - 86400)
  let r4 := mapGetOrInit l.tokenBuckets jobType (r2.1 : ℚ)
  let l1 : LocalRateLimiter := { l with
    limits := r1.2, bursts := r2.2, lastAllowed := r3.2, tokenBuckets := r4.2 }
  let elapsed := now - r3.1
  let refill := elapsed * r1.1
  let newTokens0 := r4.1 + refill
  let newTokens := if (r2.1 : ℚ) < newTokens0 then (r2.1 : ℚ) else newTokens0
  if newTokens < 1 then (false, l1)
  else
    (true, { l1 with
      tokenBuckets := mapSet l1.tokenBuckets jobType (newTokens - 1),
      lastAllowed := mapSet l1.lastAllowed jobType now })

/-! ## Context values and the handler registry (internal/job/registry.go) -/

/-- A context-value key. Go compares keys by dynamic type and value: the
worker's `contextKey("start_time")` (a defined string type) and the plain
untyped string `"start_time"` are distinct keys. -/
inductive CtxKey
  | typedKey (s : String)
  | strKey (s : String)
deriving DecidableEq, Repr

/-- `ctx.Value`: first match in the chain of `WithValue` entries. -/
def ctxValue : List (CtxKey × Int) → CtxKey → Option Int
  | [], _ => none
  | (k, v) :: rest, key => if k = key then some v else ctxValue rest key

/-- The context `Worker.executeJob` hands to the registry: the start time
(epoch nanoseconds) stored under the typed key `contextKey("start_time")`
(part_007 lines 14–16 and 127–131); the surrounding `WithTimeout` /
`WithCancel` contexts carry no values. -/
def workerJobCtx (startNano : Int) : List (CtxKey × Int) :=
  [(CtxKey.typedKey "start_time", startNano)]

/-- The unchecked type assertion `.(int64)` on the result of `ctx.Value`:
panics when the value is absent (a nil interface). -/
def typeAssertInt64 : Option Int → Except GoPanic Int
  | some v => .ok v
  | none => .error .nilTypeAssertion

/-- Job statuses (pkg/types/job.go). -/
inductive JobStatus
  | pending
  | processing
  | completed
  | failed
  | retrying
deriving DecidableEq, Repr

/-- `JobResult` (pkg/types/job.go); the `Duration` string is carried as
nanoseconds. -/
structure JobResult where
  jobID : String
  status : JobStatus
  error : String
  durationNs : Int
  completedAt : Int
deriving DecidableEq, Repr

/-- `Registry.Process` (lines 81–135). Its first statement is
`startTime := ctx.Value("start_time").(int64)` under the untyped string
key; when that assertion panics the rest of the function is unreachable.
Handlers are a map from type to a function returning an error message or
success, `now` is the wall clock in epoch nanoseconds. -/
def Registry.Process (handlers : List (String × (Job → Option String)))
    (now : Int) (ctx : List (CtxKey × Int)) (j : Job) : Except GoPanic JobResult :=
  match typeAssertInt64 (ctxValue ctx (CtxKey.strKey "start_time")) with
  | .error p => .error p
  | .ok startTime =>
    let durationNs := now - startTime
    match mapLookup handlers j.jobType with
    | none =>
      .ok ⟨j.id, .failed, "no handler registeed for job type " ++ j.jobType, durationNs, now⟩
    | some h =>
      match h j with
      | some errMsg => .ok ⟨j.id, .failed, errMsg, durationNs, now⟩
      | none => .ok ⟨j.id, .completed, "", durationNs, now⟩

/-! ## Worker (part_007) -/

/-- Reduce an integer to the signed 64-bit value Go's `int`/`int64`
arithmetic produces (two's-complement wrap-around). -/
def toInt64 (n : Int) : Int :=
  (n + 2 ^ 63) % 2 ^ 64 - 2 ^ 63

/-- Go's `uint(x)` conversion on a 64-bit platform. -/
def toUint64 (n : Int) : Int :=
  n % 2 ^ 64

/-- The Go expression `1 << s` on `int` for an unsigned shift count `s`:
zero once the count reaches the word width, otherwise `2 ^ s` wrapped to
a signed 64-bit value. -/
def goShlOne (s : Int) : Int :=
  if 64 ≤ s then 0 else toInt64 (2 ^ s.toNat)

/-- The delay computed by `Worker.requeueJobWithDelay` (lines 187–215) in
nanoseconds: `time.Duration(1 << uint(attempts-1)) * time.Second`, then
capped at 5 minutes. Both the shift and the multiplication by `10^9` are
64-bit operations. -/
def backoffDelayNs (attempts : Int) : Int :=
  let delay := toInt64 (goShlOne (toUint64 (attempts - 1)) * 1000000000)
  if 300000000000 < delay then 300000000000 else delay

/-- The per-worker atomic counters (part_007 lines 18–32). -/
structure WorkerState where
  jobsProcessed : Int
  jobsFailed : Int
  jobsRetried : Int
deriving DecidableEq, Repr

/-- What `executeJob` does after handling the result, beyond its counter
updates: nothing, schedule an asynchronous retry after a delay, drop the
job with only a "Job failed permanently" log, or send it to the
dead-letter queue with an error string. `RedisDLQ.Send` exists in the
repository (dlq.go), so forwarding to the DLQ is an action the worker
could take; the theorems below settle whether it ever does. -/
inductive PostAction
  | noFollowUp
  | retryScheduled (delayNs : Int)
  | droppedPermanently
  | sentToDLQ (err : String)
deriving DecidableEq, Repr

/-- `Worker.executeJob` (part_007 lines 125–185), given the `JobResult`
the registry produced for this job: increment the attempt counter before
dispatch, then switch on the result status — on `Completed` bump
`jobsProcessed`; on `Failed` bump `jobsFailed` and either schedule a retry
(when `ShouldRetry`) after the backoff delay, bumping `jobsRetried`, or
log "Job failed permanently" and drop the job; any other status falls
through the switch. Returns the counters, the mutated job and the
follow-up action. -/
def executeJob (w : WorkerState) (now : Int) (j : Job) (result : JobResult) :
    WorkerState × Job × PostAction :=
  let j1 := j.IncrementAttempts now
  match result.status with
  | .completed => ({ w with jobsProcessed := w.jobsProcessed + 1 }, j1, .noFollowUp)
  | .failed =>
    let w1 := { w with jobsFailed := w.jobsFailed + 1 }
    if j1.ShouldRetry then
      ({ w1 with jobsRetried := w1.jobsRetried + 1 }, j1,
        .retryScheduled (backoffDelayNs j1.attempts))
    else (w1, j1, .droppedPermanently)
  | _ => (w, j1, .noFollowUp)

/-- What one iteration of the worker loop does with the dequeue result. -/
inductive WorkerAction
  | sleptPollInterval
  | blockedInDequeue (p : Priority)
  | executed (j : Job) (post : PostAction)
  | requeuedRateLimited (j : Job)
deriving DecidableEq, Repr

/-- The outcome of one `processNextJob` iteration: the worker counters,
the rate-limiter state, the broker state, and the action taken. -/
structure WorkerIterOut where
  worker : WorkerState
  rl : LocalRateLimiter
  queueState : PQState
  action : WorkerAction
deriving DecidableEq, Repr

/-- `Worker.processNextJob` (part_007 lines 83–113): dequeue under the
iteration context; sleep the poll interval when no job is available;
otherwise hand the job to `executeJob`. The repository's `Worker` struct
holds no rate limiter — the `rl` argument is the limiter state available
in the process (internal/limiter) and is threaded through only so the
theorems can state whether this iteration consults or updates it;
`handlerResult` stands for the registry's result for a job. -/
def Worker.processNextJob (w : WorkerState) (rl : LocalRateLimiter)
    (ratio : Priority → Int) (now : Int) (s : PQState)
    (handlerResult : Job → JobResult) : WorkerIterOut :=
  match PriorityQueue.Dequeue ratio s with
  | .blockedForever p => ⟨w, rl, s, .blockedInDequeue p⟩
  | .nilNoJob s1 => ⟨w, rl, s1, .sleptPollInterval⟩
  | .gotJob j s1 =>
    let r := executeJob w now j (handlerResult j)
    ⟨r.1, rl, s1, .executed r.2.1 r.2.2⟩

/-! ## Job lifecycle transition system (for the attempts invariant)

The observable moments of a job's lifecycle, assembled from the embedded
operations: submission (`Job.Validate`, attempts start at 0 as in
`NewJob`), the worker's pre-dispatch `Job.IncrementAttempts`, the
`Job.ShouldRetry`-gated retry re-enqueue of `executeJob`, the move to the
DLQ, and the attempts reset of `RedisDLQ.Reprocess`. -/

/-- Where a job currently sits. -/
inductive JobPhase
  | queued
  | running
  | inDLQ
  | done
deriving DecidableEq, Repr

/-- A job together with its lifecycle phase. -/
structure LifeState where
  job : Job
  phase : JobPhase

/-- The states a single job can reach: accepted via validation with a
zero attempt counter; dequeued and incremented before dispatch;
completed; re-enqueued for retry only under `ShouldRetry`; moved to the
DLQ when retries are exhausted; reprocessed from the DLQ with the attempt
counter reset (dlq.go line 115). -/
inductive JobReach : LifeState → Prop
  | submit (j : Job) : j.Validate = none → j.attempts = 0 → JobReach ⟨j, .queued⟩
  | dispatch (j : Job) (now : Int) :
      JobReach ⟨j, .queued⟩ → JobReach ⟨j.IncrementAttempts now, .running⟩
  | complete (j : Job) : JobReach ⟨j, .running⟩ → JobReach ⟨j, .done⟩
  | retryRequeue (j : Job) :
      JobReach ⟨j, .running⟩ → j.ShouldRetry = true → JobReach ⟨j, .queued⟩
  | dlqMove (j : Job) :
      JobReach ⟨j, .running⟩ → j.ShouldRetry = false → JobReach ⟨j, .inDLQ⟩
  | reprocess (j : Job) (now : Int) :
      JobReach ⟨j, .inDLQ⟩ → JobReach ⟨{ j with attempts := 0, updatedAt := now }, .queued⟩

/-! ## Concrete fixtures used by the witness theorems -/

/-- A valid job (normal priority, three retries). -/
def sampleJob : Job :=
  { id := "job_a", jobType := "email", payload := [123, 125], attempts := 0,
    maxRetries := 3, createdAt := 0, updatedAt := 0, metadata := [] }

/-- A job rejected by validation: its payload is empty. -/
def emptyPayloadJob : Job :=
  { id := "job_b", jobType := "email", payload := [], attempts := 0,
    maxRetries := 3, createdAt := 0, updatedAt := 0, metadata := [] }

/-- The empty broker state for the priority queue. -/
def emptyPQState : PQState :=
  { high := [], normal := [], low := [], stats := [], priorityCounters := [] }

/-- A broker state whose normal queue holds `sampleJob`. -/
def oneJobPQState : PQState :=
  { high := [], normal := [sampleJob], low := [], stats := [], priorityCounters := [] }

/-- A DLQ holding a single failure record for `sampleJob`. -/
def oneEntryDLQ : DLQState :=
  { entries := [⟨sampleJob, "E", 0⟩], dlqStats := [("total", 1), ("type:email", 1)] }

/-- A due recurring scheduled entry wrapping `sampleJob`. -/
def recurringEntry : ScheduledJob :=
  { job := sampleJob, executeAt := 40, recurring := true, cronExpression := "* * * * *" }

/-- A limiter state whose bucket for type "email" is empty: `Allow` with
`now = 100` finds limit 0, burst 0 and 0 tokens, refills nothing and
denies. -/
def drainedLimiter : LocalRateLimiter :=
  { limits := [("email", 0)], bursts := [("email", 0)],
    lastAllowed := [("email", 100)], tokenBuckets := [("email", 0)],
    defaults := 0, defaultBurst := 0 }

/-- A job dequeued for its final allowed try: two failed attempts already
recorded against a cap of two. -/
def exhaustedJob : Job :=
  { id := "job_c", jobType := "email", payload := [123, 125], attempts := 2,
    maxRetries := 2, createdAt := 0, updatedAt := 0, metadata := [] }

/-- A failed handler result with error string "E". -/
def failedResultE : JobResult :=
  { jobID := "job_c", status := .failed, error := "E", durationNs := 0, completedAt := 0 }

/-- A registry outcome assigning every job a failed result "E". -/
def alwaysFailResult : Job → JobResult :=
  fun j => { jobID := j.id, status := .failed, error := "E", durationNs := 0, completedAt := 0 }

/-- The broker state after dequeuing `sampleJob` from `oneJobPQState`:
the ratio rule selects the (empty) high list, the one-second pop times
out, and the fall-through pops the normal list, bumping the dequeue
stats and the normal priority counter. -/
def dequeuedPQState : PQState :=
  { high := [], normal := [], low := [],
    stats := [("total_dequeued", 1), ("dequeued:normal", 1)],
    priorityCounters := [("normal", 1)] }

/-- A scheduled set holding only `recurringEntry`. -/
def oneEntrySched : SchedState :=
  { entries := [recurringEntry], schedStats := [("total", 1), ("recurring", 1)] }

/-! # Theorems -/

/-- A job with an empty id, empty type, empty payload or negative retry
cap fails `Job.Validate`. -/
theorem validate_some_of_invalid (j : Job)
    (h : j.id = "" ∨ j.jobType = "" ∨ j.payload = [] ∨ j.maxRetries < 0) :
    ∃ msg, j.Validate = some msg := by
  unfold Job.Validate
  split_ifs <;> first | exact ⟨_, rfl⟩ | tauto

/-- C7: for every job with an empty id, empty type, empty payload, or
negative max-retry cap, `PriorityQueue.Enqueue` returns a validation error
and leaves the broker state unchanged — nothing is pushed to any list, the
queue length is unchanged, and the enqueue counter is not incremented. -/
theorem enqueue_invalid_job_errors_state_unchanged (s : PQState) (j : Job)
    (h : j.id = "" ∨ j.jobType = "" ∨ j.payload = [] ∨ j.maxRetries < 0) :
    (∃ msg, (PriorityQueue.Enqueue s j).1 = Except.error (GoError.validation msg)) ∧
    (PriorityQueue.Enqueue s j).2 = s ∧
    PriorityQueue.Size (PriorityQueue.Enqueue s j).2 = PriorityQueue.Size s ∧
    hashGet (PriorityQueue.Enqueue s j).2.stats "total_enqueued" =
      hashGet s.stats "total_enqueued" := by
  obtain ⟨m, hm⟩ := validate_some_of_invalid j h
  refine ⟨⟨"job validation failed: " ++ m, ?_⟩, ?_, ?_, ?_⟩ <;>
    simp [PriorityQueue.Enqueue, hm]

/-- Witness for C7 at a concrete input: `emptyPayloadJob` has an empty
payload and enqueueing it onto `oneJobPQState` errors without mutation. -/
theorem enqueue_invalid_job_errors_state_unchanged_witness :
    emptyPayloadJob.payload = [] ∧
    ((∃ msg, (PriorityQueue.Enqueue oneJobPQState emptyPayloadJob).1 =
        Except.error (GoError.validation msg)) ∧
      (PriorityQueue.Enqueue oneJobPQState emptyPayloadJob).2 = oneJobPQState ∧
      PriorityQueue.Size (PriorityQueue.Enqueue oneJobPQState emptyPayloadJob).2 =
        PriorityQueue.Size oneJobPQState ∧
      hashGet (PriorityQueue.Enqueue oneJobPQState emptyPayloadJob).2.stats
          "total_enqueued" =
        hashGet oneJobPQState.stats "total_enqueued") :=
  ⟨rfl, enqueue_invalid_job_errors_state_unchanged oneJobPQState emptyPayloadJob
    (Or.inr (Or.inr (Or.inl rfl)))⟩

/-- The `Reprocess` scan returns "not found" and touches nothing when no
entry of the scanned list matches the id. -/
theorem reprocessScan_no_match (now : Int) (d : DLQState) (q : PQState)
    (jobID : String) (l : List FailedJobInfo) (h : ∀ e ∈ l, e.job.id ≠ jobID) :
    reprocessScan now d q jobID l =
      (Except.error (GoError.notFound ("job with ID " ++ jobID ++ " not found in DLQ")),
        d, q) := by
  induction l with
  | nil => rfl
  | cons e rest ih =>
    have he : e.job.id ≠ jobID := h e (by simp)
    simpa [reprocessScan, he] using ih (fun x hx => h x (by simp [hx]))

/-- C8: for every DLQ state and every job id matching no dead-letter
entry, `RedisDLQ.Reprocess` returns a not-found error and mutates nothing:
the DLQ contents, the `dlq:stats` counters (total, per-type, reprocessed)
and the main queue are all returned unchanged. -/
theorem reprocess_missing_id_not_found_state_unchanged (now : Int) (d : DLQState)
    (q : PQState) (jobID : String) (h : ∀ e ∈ d.entries, e.job.id ≠ jobID) :
    (RedisDLQ.Reprocess now d q jobID).1 =
      Except.error (GoError.notFound ("job with ID " ++ jobID ++ " not found in DLQ")) ∧
    (RedisDLQ.Reprocess now d q jobID).2.1 = d ∧
    (RedisDLQ.Reprocess now d q jobID).2.2 = q ∧
    hashGet (RedisDLQ.Reprocess now d q jobID).2.1.dlqStats "reprocessed" =
      hashGet d.dlqStats "reprocessed" := by
  have := reprocessScan_no_match now d q jobID d.entries h
  unfold RedisDLQ.Reprocess
  rw [this]
  exact ⟨rfl, rfl, rfl, rfl⟩

/-- Witness for C8 at a concrete input: "job_x" matches no entry of
`oneEntryDLQ`; reprocessing it fails with not-found and changes nothing. -/
theorem reprocess_missing_id_not_found_state_unchanged_witness :
    (∀ e ∈ oneEntryDLQ.entries, e.job.id ≠ "job_x") ∧
    ((RedisDLQ.Reprocess 7 oneEntryDLQ oneJobPQState "job_x").1 =
        Except.error (GoError.notFound "job with ID job_x not found in DLQ") ∧
      (RedisDLQ.Reprocess 7 oneEntryDLQ oneJobPQState "job_x").2.1 = oneEntryDLQ ∧
      (RedisDLQ.Reprocess 7 oneEntryDLQ oneJobPQState "job_x").2.2 = oneJobPQState ∧
      hashGet (RedisDLQ.Reprocess 7 oneEntryDLQ oneJobPQState "job_x").2.1.dlqStats
          "reprocessed" =
        hashGet oneEntryDLQ.dlqStats "reprocessed") :=
  ⟨by decide, reprocess_missing_id_not_found_state_unchanged 7 oneEntryDLQ
    oneJobPQState "job_x" (by decide)⟩

/-- C2 (refuting the claim; the code is at fault): `Registry.Process`
never successfully reads the start time from a context supplied by the
worker. The worker stores the start time under the typed key
`contextKey("start_time")` while `Process` asserts
`ctx.Value("start_time").(int64)` under the plain string key, so the
lookup yields nil and the type assertion panics for every job the worker
dispatches, whatever handlers are registered. -/
theorem registry_process_panics_on_worker_context
    (handlers : List (String × (Job → Option String)))
    (now startNano : Int) (j : Job) :
    Registry.Process handlers now (workerJobCtx startNano) j =
      Except.error GoPanic.nilTypeAssertion := by
  simp [Registry.Process, workerJobCtx, ctxValue, typeAssertInt64]

/-- C6: for every weight and counter assignment, the source's
`selectQueueByRatio` picks the priority whose ratio `W(p)/(C(p)+1)` is
maximal, breaking ties in the order high, normal, low: it agrees with the
spec's argmax rule and its choice has a ratio at least every other
priority's, and the default weights of `NewPriorityQueue` are
high = 5, normal = 3, low = 1. -/
theorem selectQueueByRatio_picks_max_ratio_with_tie_order (w c : Priority → Int) :
    selectQueueByRatio w c = specWeightedFairSelect w c ∧
    (∀ p, queueRatio w c p ≤ queueRatio w c (selectQueueByRatio w c)) ∧
    defaultPriorityRatio .high = 5 ∧ defaultPriorityRatio .normal = 3 ∧
    defaultPriorityRatio .low = 1 := by
  by_cases hA : queueRatio w c .high ≥ queueRatio w c .normal ∧
      queueRatio w c .high ≥ queueRatio w c .low
  · refine ⟨by simp [selectQueueByRatio, specWeightedFairSelect, hA], ?_, rfl, rfl, rfl⟩
    intro p
    have hsel : selectQueueByRatio w c = .high := by simp [selectQueueByRatio, hA]
    rw [hsel]
    cases p with
    | high => exact le_refl _
    | normal => exact hA.1
    | low => exact hA.2
  · by_cases hB' : queueRatio w c .normal ≥ queueRatio w c .low
    · have hBh : queueRatio w c .normal ≥ queueRatio w c .high := by
        by_contra hlt
        push_neg at hlt
        exact hA ⟨le_of_lt hlt, le_trans hB' (le_of_lt hlt)⟩
      have hB : queueRatio w c .normal ≥ queueRatio w c .high ∧
          queueRatio w c .normal ≥ queueRatio w c .low := ⟨hBh, hB'⟩
      refine ⟨by simp [selectQueueByRatio, specWeightedFairSelect, hA, hB, hB'], ?_,
        rfl, rfl, rfl⟩
      intro p
      have hsel : selectQueueByRatio w c = .normal := by
        simp [selectQueueByRatio, hA, hB]
      rw [hsel]
      cases p with
      | high => exact hBh
      | normal => exact le_refl _
      | low => exact hB'
    · have hB : ¬(queueRatio w c .normal ≥ queueRatio w c .high ∧
          queueRatio w c .normal ≥ queueRatio w c .low) := fun hb => hB' hb.2
      have hLn : queueRatio w c .normal ≤ queueRatio w c .low := by
        push_neg at hB'
        exact le_of_lt hB'
      have hLh : queueRatio w c .high ≤ queueRatio w c .low := by
        push_neg at hB'
        rcases not_and_or.mp hA with h1 | h2
        · push_neg at h1
          linarith
        · push_neg at h2
          linarith
      refine ⟨by simp [selectQueueByRatio, specWeightedFairSelect, hA, hB, hB'], ?_,
        rfl, rfl, rfl⟩
      intro p
      have hsel : selectQueueByRatio w c = .low := by
        simp [selectQueueByRatio, hA, hB]
      rw [hsel]
      cases p with
      | high => exact hLh
      | normal => exact hLn
      | low => exact le_refl _

/-- C4 counterexample: at the 35th attempt the 64-bit delay computation
`time.Duration(1 << uint(attempts-1)) * time.Second` overflows: the delay
is a negative duration, not the `min(2^(k-1), 300) = 300` seconds the
claim states for every `k ≥ 1`. -/
theorem backoffDelayNs_overflows_at_attempt_35 :
    backoffDelayNs 35 = -1266874889709551616 ∧
    backoffDelayNs 35 ≠ min (2 ^ 34) 300 * 1000000000 := by
  constructor <;> decide

/-- C4 as amended: for attempts `k` with `1 ≤ k ≤ 34` (so the 64-bit
product `2^(k-1) · 10^9` does not overflow), the scheduled retry delay
equals `min(2^(k-1), 300)` seconds. -/
theorem backoffDelayNs_eq_min_for_small_attempts (k : Int)
    (h1 : 1 ≤ k) (h2 : k ≤ 34) :
    backoffDelayNs k = min (2 ^ (k - 1).toNat) 300 * 1000000000 := by
  interval_cases k <;> decide

/-- Witness for the amended C4 at a concrete input: at the 10th attempt
the delay is `min(2^9, 300) = 300` seconds. -/
theorem backoffDelayNs_eq_min_for_small_attempts_witness :
    (1 : Int) ≤ 10 ∧ (10 : Int) ≤ 34 ∧
    backoffDelayNs 10 = min (2 ^ ((10 : Int) - 1).toNat) 300 * 1000000000 :=
  ⟨by decide, by decide,
    backoffDelayNs_eq_min_for_small_attempts 10 (by decide) (by decide)⟩

/-- C1 (refuting the DLQ half of the claim; the code is at fault): when a
dequeued job's handler result is `Failed` and the incremented attempt
counter has reached its cap, `executeJob` increments the worker's failed
counter but then only logs "Job failed permanently" and drops the job —
the follow-up action is `droppedPermanently`, never `sentToDLQ` (the
`Worker` struct holds no dead-letter queue and `RedisDLQ.Send` has no
caller), so an exhausted job is neither completed, nor in the DLQ, nor in
any queue. -/
theorem executeJob_exhausted_failure_dropped_not_sent_to_dlq
    (w : WorkerState) (now : Int) (j : Job) (result : JobResult)
    (hst : result.status = JobStatus.failed)
    (hcap : j.maxRetries ≤ j.attempts + 1) :
    executeJob w now j result =
      ({ w with jobsFailed := w.jobsFailed + 1 }, j.IncrementAttempts now,
        PostAction.droppedPermanently) ∧
    (∀ e, PostAction.droppedPermanently ≠ PostAction.sentToDLQ e) := by
  have hsr : (j.IncrementAttempts now).ShouldRetry = false := by
    simp only [Job.IncrementAttempts, Job.ShouldRetry, decide_eq_false_iff_not, not_lt]
    exact hcap
  refine ⟨?_, fun e => by simp⟩
  unfold executeJob
  rw [hst]
  simp [hsr]

/-- Witness for C1 at a concrete input: `exhaustedJob` (two attempts,
cap two) fails a third time with error "E"; the failed counter gains one
and the job is dropped without a DLQ send. -/
theorem executeJob_exhausted_failure_dropped_not_sent_to_dlq_witness :
    failedResultE.status = JobStatus.failed ∧
    exhaustedJob.maxRetries ≤ exhaustedJob.attempts + 1 ∧
    (executeJob ⟨0, 0, 0⟩ 9 exhaustedJob failedResultE =
        ({ jobsProcessed := 0, jobsFailed := 1, jobsRetried := 0 },
          exhaustedJob.IncrementAttempts 9, PostAction.droppedPermanently) ∧
      (∀ e, PostAction.droppedPermanently ≠ PostAction.sentToDLQ e)) := by
  refine ⟨rfl, by decide, ?_⟩
  have h := executeJob_exhausted_failure_dropped_not_sent_to_dlq
    ⟨0, 0, 0⟩ 9 exhaustedJob failedResultE rfl (by decide)
  exact h

/-- C5 (refuting the claim; the code is at fault): when all three
priority lists are empty, `Dequeue` does not return nil after its bounded
cycle. The first `BRPOP` (timeout one second) times out, but the
fall-through pops run with timeout 0, which blocks indefinitely on an
empty list, so the call hangs on the first non-selected key and the
`return nil, nil` path is unreachable. -/
theorem dequeue_all_empty_blocks_forever_never_nil (ratio : Priority → Int)
    (s : PQState) (hh : s.high = []) (hn : s.normal = []) (hl : s.low = []) :
    PriorityQueue.Dequeue ratio s =
      DequeueOutcome.blockedForever
        (if selectQueueByRatio ratio (getPriorityCounters s) = Priority.high
          then Priority.normal else Priority.high) ∧
    (∀ s1, PriorityQueue.Dequeue ratio s ≠ DequeueOutcome.nilNoJob s1) ∧
    (∀ j s1, PriorityQueue.Dequeue ratio s ≠ DequeueOutcome.gotJob j s1) := by
  have hmain : PriorityQueue.Dequeue ratio s =
      DequeueOutcome.blockedForever
        (if selectQueueByRatio ratio (getPriorityCounters s) = Priority.high
          then Priority.normal else Priority.high) := by
    unfold PriorityQueue.Dequeue
    cases hk : selectQueueByRatio ratio (getPriorityCounters s) <;>
      simp [brpop, queueList, hh, hn, hl, tryOtherQueues, hk]
  exact ⟨hmain, fun s1 => by rw [hmain]; simp, fun j s1 => by rw [hmain]; simp⟩

/-- Witness for C5 at a concrete input: on the empty broker state the
ratio rule selects high, and the dequeue blocks forever on the normal
list instead of returning nil. -/
theorem dequeue_all_empty_blocks_forever_never_nil_witness :
    emptyPQState.high = [] ∧ emptyPQState.normal = [] ∧ emptyPQState.low = [] ∧
    (PriorityQueue.Dequeue defaultPriorityRatio emptyPQState =
        DequeueOutcome.blockedForever
          (if selectQueueByRatio defaultPriorityRatio
              (getPriorityCounters emptyPQState) = Priority.high
            then Priority.normal else Priority.high) ∧
      (∀ s1, PriorityQueue.Dequeue defaultPriorityRatio emptyPQState ≠
          DequeueOutcome.nilNoJob s1) ∧
      (∀ j s1, PriorityQueue.Dequeue defaultPriorityRatio emptyPQState ≠
          DequeueOutcome.gotJob j s1)) :=
  ⟨rfl, rfl, rfl,
    dequeue_all_empty_blocks_forever_never_nil defaultPriorityRatio emptyPQState
      rfl rfl rfl⟩

/-- C3 (refuting the claim; the code is at fault): for every job obtained
by dequeue, the worker loop executes the job through the registry without
any rate-limit admission check: even when `LocalRateLimiter.Allow` would
deny the job's type, `processNextJob` runs the job, leaves the limiter
state untouched, and never takes the requeue-on-denial action the spec
describes. -/
theorem processNextJob_executes_despite_rate_limit_denial
    (w : WorkerState) (rl : LocalRateLimiter) (ratio : Priority → Int)
    (nowSec : ℚ) (now : Int) (s : PQState) (handlerResult : Job → JobResult)
    (j : Job) (s1 : PQState)
    (hdq : PriorityQueue.Dequeue ratio s = DequeueOutcome.gotJob j s1)
    (hdenied : (LocalRateLimiter.Allow rl nowSec j.jobType).1 = false) :
    (Worker.processNextJob w rl ratio now s handlerResult).action =
      WorkerAction.executed (executeJob w now j (handlerResult j)).2.1
        (executeJob w now j (handlerResult j)).2.2 ∧
    (Worker.processNextJob w rl ratio now s handlerResult).rl = rl ∧
    (∀ jj, (Worker.processNextJob w rl ratio now s handlerResult).action ≠
      WorkerAction.requeuedRateLimited jj) := by
  unfold Worker.processNextJob
  rw [hdq]
  exact ⟨rfl, rfl, fun jj => by simp⟩


/-- Witness for C3 at a concrete input: `sampleJob` (type "email") sits
in the normal queue, `drainedLimiter` denies type "email" at time 100,
yet the iteration executes the job and ignores the limiter. -/
theorem processNextJob_executes_despite_rate_limit_denial_witness :
    PriorityQueue.Dequeue defaultPriorityRatio oneJobPQState =
      DequeueOutcome.gotJob sampleJob dequeuedPQState ∧
    (LocalRateLimiter.Allow drainedLimiter 100 sampleJob.jobType).1 = false ∧
    ((Worker.processNextJob ⟨0, 0, 0⟩ drainedLimiter defaultPriorityRatio 9
        oneJobPQState alwaysFailResult).action =
      WorkerAction.executed
        (executeJob ⟨0, 0, 0⟩ 9 sampleJob (alwaysFailResult sampleJob)).2.1
        (executeJob ⟨0, 0, 0⟩ 9 sampleJob (alwaysFailResult sampleJob)).2.2 ∧
    (Worker.processNextJob ⟨0, 0, 0⟩ drainedLimiter defaultPriorityRatio 9
        oneJobPQState alwaysFailResult).rl = drainedLimiter ∧
    (∀ jj, (Worker.processNextJob ⟨0, 0, 0⟩ drainedLimiter defaultPriorityRatio 9
        oneJobPQState alwaysFailResult).action ≠
      WorkerAction.requeuedRateLimited jj)) := by
  have hsel : selectQueueByRatio defaultPriorityRatio
      (getPriorityCounters oneJobPQState) = Priority.high := by
    norm_num [selectQueueByRatio, queueRatio, getPriorityCounters, hashGet,
      defaultPriorityRatio, oneJobPQState]
  have hdq : PriorityQueue.Dequeue defaultPriorityRatio oneJobPQState =
      DequeueOutcome.gotJob sampleJob dequeuedPQState := by
    simp only [PriorityQueue.Dequeue, hsel]
    decide
  have hallow : (LocalRateLimiter.Allow drainedLimiter 100 sampleJob.jobType).1 =
      false := by
    norm_num [LocalRateLimiter.Allow, mapGetOrInit, mapLookup, mapSet,
      drainedLimiter, sampleJob]
  exact ⟨hdq, hallow,
    processNextJob_executes_despite_rate_limit_denial ⟨0, 0, 0⟩ drainedLimiter
      defaultPriorityRatio 100 9 oneJobPQState alwaysFailResult sampleJob
      dequeuedPQState hdq hallow⟩

/-- C9: for every due recurring entry whose inner job the loop body moves
to the main queue, `ProcessDueJobs` removes the entry and reinserts one
whose execute-at is `next(now)` from the preserved cron expression, whose
recurring flag and cron expression are preserved, and whose embedded job
is a clone of the original with a new generated id, attempts reset to 0
and fresh creation/update timestamps. -/
theorem processDueEntry_recurring_reinserts_clone (now : Int) (ss : SchedState)
    (qs : PQState) (count : Nat) (e : ScheduledJob)
    (hrec : e.recurring = true) (hval : e.job.Validate = none) :
    processDueEntry now (ss, qs, count) e =
      (addScheduledJob { ss with entries := zremSched ss.entries e }
          ⟨recurringClone now e.job, cronNext e.cronExpression now, true,
            e.cronExpression⟩,
        (PriorityQueue.Enqueue qs e.job).2, count + 1) ∧
    (∃ e1, (processDueEntry now (ss, qs, count) e).1.entries =
        zremSched ss.entries e ++ [e1] ∧
      e1.executeAt = cronNext e.cronExpression now ∧
      e1.recurring = true ∧
      e1.cronExpression = e.cronExpression ∧
      e1.job.id = generateJobID now ∧
      e1.job.attempts = 0 ∧
      e1.job.createdAt = now ∧
      e1.job.updatedAt = now ∧
      e1.job.jobType = e.job.jobType ∧
      e1.job.payload = e.job.payload ∧
      e1.job.maxRetries = e.job.maxRetries) := by
  have henq : (PriorityQueue.Enqueue qs e.job).1 = Except.ok () := by
    unfold PriorityQueue.Enqueue
    rw [hval]
  have hmain : processDueEntry now (ss, qs, count) e =
      (addScheduledJob { ss with entries := zremSched ss.entries e }
          ⟨recurringClone now e.job, cronNext e.cronExpression now, true,
            e.cronExpression⟩,
        (PriorityQueue.Enqueue qs e.job).2, count + 1) := by
    unfold processDueEntry
    simp only [henq, hrec, if_true]
  refine ⟨hmain, ?_⟩
  refine ⟨⟨recurringClone now e.job, cronNext e.cronExpression now, true,
    e.cronExpression⟩, ?_, rfl, rfl, rfl, rfl, rfl, rfl, rfl, rfl, rfl, rfl⟩
  rw [hmain]
  simp [addScheduledJob]

/-- Witness for C9 at a concrete input: processing `recurringEntry` at
time 100 enqueues `sampleJob`, removes the entry, and reinserts a clone
scheduled at 160 with id "job-100" and attempts 0. -/
theorem processDueEntry_recurring_reinserts_clone_witness :
    recurringEntry.recurring = true ∧
    recurringEntry.job.Validate = none ∧
    (processDueEntry 100 (oneEntrySched, emptyPQState, 0) recurringEntry =
        (addScheduledJob { oneEntrySched with
            entries := zremSched oneEntrySched.entries recurringEntry }
          ⟨recurringClone 100 recurringEntry.job,
            cronNext recurringEntry.cronExpression 100, true,
            recurringEntry.cronExpression⟩,
        (PriorityQueue.Enqueue emptyPQState recurringEntry.job).2, 0 + 1) ∧
      (∃ e1, (processDueEntry 100 (oneEntrySched, emptyPQState, 0)
            recurringEntry).1.entries =
          zremSched oneEntrySched.entries recurringEntry ++ [e1] ∧
        e1.executeAt = cronNext recurringEntry.cronExpression 100 ∧
        e1.recurring = true ∧
        e1.cronExpression = recurringEntry.cronExpression ∧
        e1.job.id = generateJobID 100 ∧
        e1.job.attempts = 0 ∧
        e1.job.createdAt = 100 ∧
        e1.job.updatedAt = 100 ∧
        e1.job.jobType = recurringEntry.job.jobType ∧
        e1.job.payload = recurringEntry.job.payload ∧
        e1.job.maxRetries = recurringEntry.job.maxRetries)) :=
  ⟨rfl, by decide,
    processDueEntry_recurring_reinserts_clone 100 oneEntrySched emptyPQState 0
      recurringEntry rfl (by decide)⟩

/-- A job that passes `Job.Validate` has a non-negative retry cap. -/
theorem validate_none_cap_nonneg (j : Job) (h : j.Validate = none) :
    0 ≤ j.maxRetries := by
  by_contra hneg
  push_neg at hneg
  unfold Job.Validate at h
  split_ifs at h

/-- Strengthened lifecycle invariant: every reachable lifecycle state has
a non-negative cap, attempt counter at most `cap` while queued, and at
most `cap + 1` everywhere. -/
theorem jobReach_strong_invariant (st : LifeState) (h : JobReach st) :
    0 ≤ st.job.maxRetries ∧
    (st.phase = JobPhase.queued → st.job.attempts ≤ st.job.maxRetries) ∧
    st.job.attempts ≤ st.job.maxRetries + 1 := by
  induction h with
  | submit j hv ha =>
    have hcap := validate_none_cap_nonneg j hv
    dsimp only
    exact ⟨hcap, fun _ => by omega, by omega⟩
  | dispatch j now _ ih =>
    dsimp only [Job.IncrementAttempts] at ih ⊢
    have hq := ih.2.1 rfl
    exact ⟨ih.1, fun hph => JobPhase.noConfusion hph, by omega⟩
  | complete j _ ih =>
    dsimp only at ih ⊢
    exact ⟨ih.1, fun hph => JobPhase.noConfusion hph, ih.2.2⟩
  | retryRequeue j _ hsr ih =>
    dsimp only at ih ⊢
    have hlt : j.attempts < j.maxRetries := by
      simpa [Job.ShouldRetry] using hsr
    exact ⟨ih.1, fun _ => by omega, ih.2.2⟩
  | dlqMove j _ hsr ih =>
    dsimp only at ih ⊢
    exact ⟨ih.1, fun hph => JobPhase.noConfusion hph, ih.2.2⟩
  | reprocess j now _ ih =>
    dsimp only at ih ⊢
    have hcap := ih.1
    exact ⟨hcap, fun _ => hcap, by omega⟩

/-- C10: at every observable moment of a job's lifecycle — after
acceptance, after the worker's single pre-dispatch increment, after a
`ShouldRetry`-gated retry re-enqueue, and after a DLQ reprocess resets the
counter — the attempt counter satisfies `attempts ≤ cap + 1`. -/
theorem attempts_le_cap_succ_invariant (st : LifeState) (h : JobReach st) :
    st.job.attempts ≤ st.job.maxRetries + 1 :=
  (jobReach_strong_invariant st h).2.2

/-- Witness for C10 at a concrete lifecycle state: `sampleJob` submitted
and dispatched once is running with one attempt, at most its cap plus
one. -/
theorem attempts_le_cap_succ_invariant_witness :
    sampleJob.Validate = none ∧ sampleJob.attempts = 0 ∧
    (LifeState.mk (sampleJob.IncrementAttempts 5) JobPhase.running).job.attempts ≤
      (LifeState.mk (sampleJob.IncrementAttempts 5) JobPhase.running).job.maxRetries + 1 :=
  ⟨by decide, rfl,
    attempts_le_cap_succ_invariant ⟨sampleJob.IncrementAttempts 5, JobPhase.running⟩
      (JobReach.dispatch sampleJob 5 (JobReach.submit sampleJob (by decide) rfl))⟩
